import Mathlib

/-!
# Verification of the backup_tools logical core

Shallow embedding of the two functional routines of the repository:

* the recursive folder scanner `get_folder_info` (two variants: the one in
  `pages/1_Folder_Analyzer.py` and the one in
  `adv_backup/pages/2_Folder_Checker.py`),
* the greedy fitter `efficient_fitting_greedy` (`pages/1_Folder_Analyzer.py`),
* the directory comparator `start_comparison`
  (`adv_backup/pages/2_Folder_Checker.py`).

Directory trees are modelled by an inductive type of filesystem entries.
`os.scandir` is modelled by the list of entries of a directory, in the
(arbitrary but fixed) order the host API yields them.  File sizes
(`st_size`) are natural numbers.  The Streamlit `status_text` handle is
modelled as a boolean flag ("a sink was supplied") together with an explicit
trace of the messages the routine would emit; Python float arithmetic in the
fitter is modelled by exact rational arithmetic.
-/

/-- A filesystem entry: a regular file with a name and a byte size, or a
directory with a name and its (ordered) list of entries. -/
inductive FsEntry : Type where
  | file (name : String) (size : Nat) : FsEntry
  | dir (name : String) (entries : List FsEntry) : FsEntry
deriving Repr

/-- `entry.name`, as used by the source (`os.DirEntry.name`). -/
def FsEntry.name : FsEntry → String
  | .file n _ => n
  | .dir n _ => n

/-- Specification-level byte total: the sum of the sizes of all regular files
transitively contained in a list of entries.  This is the `L` of the spec
sentence "folder trees with `N` regular files and total content length `L`
bytes"; it is written from the spec's words, to be compared with the
scanners translated from the source. -/
def totalBytes : List FsEntry → Nat
  | [] => 0
  | FsEntry.file _ size :: rest => size + totalBytes rest
  | FsEntry.dir _ sub :: rest => totalBytes sub + totalBytes rest

/-- Specification-level file count: the number of regular files transitively
contained in a list of entries (the `N` of the spec). -/
def fileCount : List FsEntry → Nat
  | [] => 0
  | FsEntry.file _ _ :: rest => 1 + fileCount rest
  | FsEntry.dir _ sub :: rest => fileCount sub + fileCount rest

namespace FolderAnalyzer

/-- `get_folder_info(folder_path, status_text)` from
`pages/1_Folder_Analyzer.py`, translated from the source.

The Python loop walks `os.scandir(folder_path)`: a regular file adds its
`st_size` to `total_size` and `1` to `file_count`; a directory recurses on
`entry.path` and adds the subtree's totals.  After handling each entry, if a
`status_text` sink was supplied, the message
`"Scanning {entry.name}, in {folder_path}"` is emitted.  The returned triple
is `(total_size, file_count, emitted messages in order)`; the third
component materialises the side channel. -/
def get_folder_info (folder_path : String) (statusOn : Bool) :
    List FsEntry → Nat × Nat × List String
  | [] => (0, 0, [])
  | FsEntry.file name size :: rest =>
    let msg : List String :=
      if statusOn then ["Scanning " ++ name ++ ", in " ++ folder_path] else []
    let r := get_folder_info folder_path statusOn rest
    (size + r.1, 1 + r.2.1, msg ++ r.2.2)
  | FsEntry.dir name sub :: rest =>
    let s := get_folder_info (folder_path ++ "/" ++ name) statusOn sub
    let msg : List String :=
      if statusOn then ["Scanning " ++ name ++ ", in " ++ folder_path] else []
    let r := get_folder_info folder_path statusOn rest
    (s.1 + r.1, s.2.1 + r.2.1, s.2.2 ++ msg ++ r.2.2)

end FolderAnalyzer

lemma analyzer_scan_spec (folder_path : String) (statusOn : Bool)
    (entries : List FsEntry) :
    (FolderAnalyzer.get_folder_info folder_path statusOn entries).1
        = totalBytes entries ∧
      (FolderAnalyzer.get_folder_info folder_path statusOn entries).2.1
        = fileCount entries := by
  induction folder_path, statusOn, entries using FolderAnalyzer.get_folder_info.induct with
  | case1 => simp [FolderAnalyzer.get_folder_info, totalBytes, fileCount]
  | case2 fp st name size rest ih =>
    simp only [FolderAnalyzer.get_folder_info, totalBytes, fileCount]
    exact ⟨by rw [ih.1], by rw [ih.2]⟩
  | case3 fp st name sub rest ih_sub ih =>
    simp only [FolderAnalyzer.get_folder_info, totalBytes, fileCount]
    exact ⟨by rw [ih_sub.1, ih.1], by rw [ih_sub.2, ih.2]⟩

namespace FolderChecker

/-- `get_folder_info(folder_path, status_text, total_size_scanned)` from
`adv_backup/pages/2_Folder_Checker.py`, translated from the source.

A regular file adds its size to `total_size` and to the threaded
`total_size_scanned` accumulator, increments `file_count`, and — when a
`status_text` sink was supplied — emits `"Scanning {folder_path}"`; a
directory recurses, receiving the current `total_size_scanned` and handing
back the updated one.  The returned quadruple is
`(total_size, file_count, total_size_scanned, emitted messages in order)`;
the fourth component materialises the side channel. -/
def get_folder_info (folder_path : String) (statusOn : Bool)
    (total_size_scanned : Nat) :
    List FsEntry → Nat × Nat × Nat × List String
  | [] => (0, 0, total_size_scanned, [])
  | FsEntry.file _ size :: rest =>
    let msg : List String :=
      if statusOn then ["Scanning " ++ folder_path] else []
    let r := get_folder_info folder_path statusOn (total_size_scanned + size) rest
    (size + r.1, 1 + r.2.1, r.2.2.1, msg ++ r.2.2.2)
  | FsEntry.dir name sub :: rest =>
    let s := get_folder_info (folder_path ++ "/" ++ name) statusOn total_size_scanned sub
    let r := get_folder_info folder_path statusOn s.2.2.1 rest
    (s.1 + r.1, s.2.1 + r.2.1, r.2.2.1, s.2.2.2 ++ r.2.2.2)

end FolderChecker

lemma checker_scan_spec (folder_path : String) (statusOn : Bool)
    (acc : Nat) (entries : List FsEntry) :
    (FolderChecker.get_folder_info folder_path statusOn acc entries).1
        = totalBytes entries ∧
      (FolderChecker.get_folder_info folder_path statusOn acc entries).2.1
        = fileCount entries ∧
      (FolderChecker.get_folder_info folder_path statusOn acc entries).2.2.1
        = acc + totalBytes entries := by
  induction entries using totalBytes.induct generalizing folder_path acc with
  | case1 => simp [FolderChecker.get_folder_info, totalBytes, fileCount]
  | case2 name size rest ih =>
    simp only [FolderChecker.get_folder_info, totalBytes, fileCount]
    obtain ⟨h1, h2, h3⟩ := ih folder_path (acc + size)
    refine ⟨by rw [h1], by rw [h2], by rw [h3]; omega⟩
  | case3 name sub rest ih_sub ih =>
    simp only [FolderChecker.get_folder_info, totalBytes, fileCount]
    obtain ⟨s1, s2, s3⟩ := ih_sub (folder_path ++ "/" ++ name) acc
    rw [s1, s2, s3]
    obtain ⟨h1, h2, h3⟩ := ih folder_path (acc + totalBytes sub)
    refine ⟨by rw [h1], by rw [h2], by rw [h3]; omega⟩

namespace FolderAnalyzer

/-- The selection loop of `efficient_fitting_greedy`: walk the (sorted) list
of `(folder, size)` pairs, accept a pair whenever its size does not exceed
the remaining space, subtracting it from the remaining space on acceptance.
Python float arithmetic on `remaining_space` is modelled by exact rational
arithmetic; the folder sizes themselves are the integers produced by the
scanner. -/
def fit_go : List (String × Nat) → ℚ → List (String × Nat) × ℚ
  | [], remaining_space => ([], remaining_space)
  | (folder, size) :: rest, remaining_space =>
    if (size : ℚ) ≤ remaining_space then
      let r := fit_go rest (remaining_space - size)
      ((folder, size) :: r.1, r.2)
    else
      fit_go rest remaining_space

/-- `efficient_fitting_greedy(folder_infos, hard_disk_size_tb,
safety_margin_percent)` from `pages/1_Folder_Analyzer.py`, translated from
the source: compute the capacity in bytes (`tb * 1024^4`), subtract the
safety margin, project the `(folder, size, file_count)` triples to
`(folder, size)` pairs, sort them by size descending (Python's stable sort
with `reverse=True`), then run the greedy selection loop.  Returns the
selected pairs in selection order together with the remaining space. -/
def efficient_fitting_greedy (folder_infos : List (String × Nat × Nat))
    (hard_disk_size_tb safety_margin_percent : ℚ) :
    List (String × Nat) × ℚ :=
  let hard_disk_size_bytes : ℚ := hard_disk_size_tb * 1024 ^ 4
  let safety_margin : ℚ := hard_disk_size_bytes * (safety_margin_percent / 100)
  let adjusted_hard_disk_size_bytes := hard_disk_size_bytes - safety_margin
  let folder_sizes := folder_infos.map (fun x => (x.1, x.2.1))
  let sorted := folder_sizes.mergeSort (fun a b => decide (b.2 ≤ a.2))
  fit_go sorted adjusted_hard_disk_size_bytes

end FolderAnalyzer

lemma fit_go_sum_add_rem (l : List (String × Nat)) (rem : ℚ) :
    (((FolderAnalyzer.fit_go l rem).1.map fun p => (p.2 : ℚ)).sum
        + (FolderAnalyzer.fit_go l rem).2) = rem := by
  induction l generalizing rem with
  | nil => simp [FolderAnalyzer.fit_go]
  | cons hd tl ih =>
    obtain ⟨folder, size⟩ := hd
    by_cases h : (size : ℚ) ≤ rem
    · simp only [FolderAnalyzer.fit_go, if_pos h, List.map_cons, List.sum_cons]
      have := ih (rem - size)
      linarith
    · simp only [FolderAnalyzer.fit_go, if_neg h]
      exact ih rem

lemma fit_go_rem_nonneg (l : List (String × Nat)) (rem : ℚ) (h : 0 ≤ rem) :
    0 ≤ (FolderAnalyzer.fit_go l rem).2 := by
  induction l generalizing rem with
  | nil => simpa [FolderAnalyzer.fit_go] using h
  | cons hd tl ih =>
    obtain ⟨folder, size⟩ := hd
    by_cases hle : (size : ℚ) ≤ rem
    · simp only [FolderAnalyzer.fit_go, if_pos hle]
      exact ih (rem - size) (by linarith)
    · simp only [FolderAnalyzer.fit_go, if_neg hle]
      exact ih rem h

lemma fit_go_mem_size_le (l : List (String × Nat)) (rem : ℚ)
    (folder : String) (size : Nat)
    (hmem : (folder, size) ∈ (FolderAnalyzer.fit_go l rem).1) :
    (size : ℚ) ≤ rem := by
  induction l generalizing rem with
  | nil => simp [FolderAnalyzer.fit_go] at hmem
  | cons hd tl ih =>
    obtain ⟨f0, s0⟩ := hd
    by_cases hle : (s0 : ℚ) ≤ rem
    · simp only [FolderAnalyzer.fit_go, if_pos hle, List.mem_cons] at hmem
      rcases hmem with heq | hmem
      · injection heq with h1 h2
        subst h2
        exact hle
      · have := ih (rem - s0) hmem
        have hs0 : (0 : ℚ) ≤ (s0 : ℚ) := Nat.cast_nonneg s0
        linarith
    · simp only [FolderAnalyzer.fit_go, if_neg hle] at hmem
      exact ih rem hmem

lemma fit_go_pos_sizes_empty (l : List (String × Nat)) (rem : ℚ)
    (hpos : ∀ p ∈ l, p.2 ≠ 0) (hrem : rem ≤ 0) :
    (FolderAnalyzer.fit_go l rem).1 = [] := by
  induction l with
  | nil => simp [FolderAnalyzer.fit_go]
  | cons hd tl ih =>
    obtain ⟨f0, s0⟩ := hd
    have hs0 : s0 ≠ 0 := hpos (f0, s0) (List.mem_cons_self _ _)
    have hlt : ¬ ((s0 : ℚ) ≤ rem) := by
      intro hle
      have h1 : (1 : ℚ) ≤ (s0 : ℚ) := by
        exact_mod_cast Nat.one_le_iff_ne_zero.mpr hs0
      linarith
    simp only [FolderAnalyzer.fit_go, if_neg hlt]
    exact ih fun p hp => hpos p (List.mem_cons_of_mem _ hp)

namespace FolderChecker

/-- `start_comparison(directory_pairs, size_threshold, file_count_threshold,
status_text)` from `adv_backup/pages/2_Folder_Checker.py`, translated from
the source.  The host filesystem is modelled by `fs`, mapping a directory
path to its list of entries.  For each pair both sides are scanned, the
absolute deltas computed, and the pair classified; the human-readable
message numbers the pair by `directory_pairs.index((dir_a, dir_b)) + 1`.
Returns the `(message, identical)` list in input order. -/
def start_comparison (fs : String → List FsEntry)
    (directory_pairs : List (String × String))
    (size_threshold file_count_threshold : Nat) (statusOn : Bool) :
    List (String × Bool) :=
  directory_pairs.map fun p =>
    let dir_a := p.1
    let dir_b := p.2
    let ra := get_folder_info dir_a statusOn 0 (fs dir_a)
    let rb := get_folder_info dir_b statusOn 0 (fs dir_b)
    let size_a := ra.1
    let num_files_a := ra.2.1
    let size_b := rb.1
    let num_files_b := rb.2.1
    let size_delta := ((size_a : Int) - (size_b : Int)).natAbs
    let file_count_delta := ((num_files_a : Int) - (num_files_b : Int)).natAbs
    let idx := List.indexOf (dir_a, dir_b) directory_pairs
    let result :=
      if size_delta ≤ size_threshold ∧ file_count_delta ≤ file_count_threshold then
        "Directory pair " ++ dir_a ++ " and " ++ dir_b ++ " (pair "
          ++ toString (idx + 1) ++ ") are identical. The directory size is "
          ++ toString size_a ++ " bytes, and it contains "
          ++ toString num_files_a ++ " files.\n"
      else
        "Directory pair " ++ dir_a ++ " and " ++ dir_b ++ " (pair "
          ++ toString (idx + 1)
          ++ ") are different. The size delta between directories is "
          ++ toString size_delta ++ " bytes, and the file number delta is "
          ++ toString file_count_delta ++ " files.\n"
    let identical :=
      size_delta ≤ size_threshold ∧ file_count_delta ≤ file_count_threshold
    (result, decide identical)

/-- Specification-level size delta of a directory pair: the absolute
difference of the byte totals of the two sides' scans. -/
def spec_size_delta (fs : String → List FsEntry) (dir_a dir_b : String) :
    Nat :=
  ((totalBytes (fs dir_a) : Int) - (totalBytes (fs dir_b) : Int)).natAbs

/-- Specification-level file-count delta of a directory pair: the absolute
difference of the file counts of the two sides' scans. -/
def spec_file_count_delta (fs : String → List FsEntry)
    (dir_a dir_b : String) : Nat :=
  ((fileCount (fs dir_a) : Int) - (fileCount (fs dir_b) : Int)).natAbs

/-- The comparison message of `start_comparison` with the pair number `k`
made an explicit parameter, so that theorems can state which number the
routine embeds in the message. -/
def pair_label (fs : String → List FsEntry)
    (size_threshold file_count_threshold : Nat) (k : Nat)
    (p : String × String) : String :=
  if spec_size_delta fs p.1 p.2 ≤ size_threshold ∧
      spec_file_count_delta fs p.1 p.2 ≤ file_count_threshold then
    "Directory pair " ++ p.1 ++ " and " ++ p.2 ++ " (pair "
      ++ toString k ++ ") are identical. The directory size is "
      ++ toString (totalBytes (fs p.1)) ++ " bytes, and it contains "
      ++ toString (fileCount (fs p.1)) ++ " files.\n"
  else
    "Directory pair " ++ p.1 ++ " and " ++ p.2 ++ " (pair "
      ++ toString k
      ++ ") are different. The size delta between directories is "
      ++ toString (spec_size_delta fs p.1 p.2)
      ++ " bytes, and the file number delta is "
      ++ toString (spec_file_count_delta fs p.1 p.2) ++ " files.\n"

end FolderChecker

lemma start_comparison_length (fs : String → List FsEntry)
    (pairs : List (String × String)) (s f : Nat) (st : Bool) :
    (FolderChecker.start_comparison fs pairs s f st).length = pairs.length := by
  simp [FolderChecker.start_comparison]

lemma start_comparison_get (fs : String → List FsEntry)
    (pairs : List (String × String)) (s f : Nat) (st : Bool)
    (i : Nat) (hi : i < pairs.length)
    (hi' : i < (FolderChecker.start_comparison fs pairs s f st).length) :
    (FolderChecker.start_comparison fs pairs s f st).get ⟨i, hi'⟩ =
      (FolderChecker.pair_label fs s f
          (List.indexOf (pairs.get ⟨i, hi⟩) pairs + 1) (pairs.get ⟨i, hi⟩),
        decide (FolderChecker.spec_size_delta fs (pairs.get ⟨i, hi⟩).1
            (pairs.get ⟨i, hi⟩).2 ≤ s ∧
          FolderChecker.spec_file_count_delta fs (pairs.get ⟨i, hi⟩).1
            (pairs.get ⟨i, hi⟩).2 ≤ f)) := by
  have ha := checker_scan_spec (pairs.get ⟨i, hi⟩).1 st 0 (fs (pairs.get ⟨i, hi⟩).1)
  have hb := checker_scan_spec (pairs.get ⟨i, hi⟩).2 st 0 (fs (pairs.get ⟨i, hi⟩).2)
  simp only [List.get_eq_getElem] at ha hb ⊢
  simp only [FolderChecker.start_comparison, List.getElem_map,
    FolderChecker.pair_label, FolderChecker.spec_size_delta,
    FolderChecker.spec_file_count_delta]
  rw [ha.1, ha.2.1, hb.1, hb.2.1]

lemma start_comparison_getD (fs : String → List FsEntry)
    (pairs : List (String × String)) (s f : Nat) (st : Bool)
    (i : Nat) (hi : i < pairs.length) :
    (FolderChecker.start_comparison fs pairs s f st).getD i ("", false) =
      (FolderChecker.pair_label fs s f
          (List.indexOf (pairs.getD i ("", "")) pairs + 1) (pairs.getD i ("", "")),
        decide (FolderChecker.spec_size_delta fs (pairs.getD i ("", "")).1
            (pairs.getD i ("", "")).2 ≤ s ∧
          FolderChecker.spec_file_count_delta fs (pairs.getD i ("", "")).1
            (pairs.getD i ("", "")).2 ≤ f)) := by
  have hi' : i < (FolderChecker.start_comparison fs pairs s f st).length := by
    rw [start_comparison_length]; exact hi
  rw [List.getD_eq_getElem _ _ hi', List.getD_eq_getElem _ _ hi]
  have := start_comparison_get fs pairs s f st i hi hi'
  simpa [List.get_eq_getElem] using this

/-- C1: for every directory tree containing `N` regular files whose byte
lengths sum to `L`, the folder scanner `get_folder_info` (both the
Folder-Analyzer and the Folder-Checker variant) returns
`total_size_bytes = L` and `file_count = N`, for every root path, progress
sink, and (for the checker variant) initial scanned accumulator; scanning an
empty directory is the `entries = []` instance, where both sums are `0`. -/
theorem scan_returns_sum_of_sizes_and_file_count (folder_path : String)
    (statusOn : Bool) (acc : Nat) (entries : List FsEntry) :
    (FolderAnalyzer.get_folder_info folder_path statusOn entries).1
        = totalBytes entries ∧
      (FolderAnalyzer.get_folder_info folder_path statusOn entries).2.1
        = fileCount entries ∧
      (FolderChecker.get_folder_info folder_path statusOn acc entries).1
        = totalBytes entries ∧
      (FolderChecker.get_folder_info folder_path statusOn acc entries).2.1
        = fileCount entries := by
  obtain ⟨h1, h2⟩ := analyzer_scan_spec folder_path statusOn entries
  obtain ⟨h3, h4, -⟩ := checker_scan_spec folder_path statusOn acc entries
  exact ⟨h1, h2, h3, h4⟩

/-- C5: the `(total_size_bytes, file_count)` result of the folder scanner
(either variant) is the same whether or not a progress-notification sink is
supplied; the progress side channel never affects the returned totals. -/
theorem scan_totals_independent_of_progress_sink (folder_path : String)
    (acc : Nat) (entries : List FsEntry) :
    (FolderAnalyzer.get_folder_info folder_path true entries).1
        = (FolderAnalyzer.get_folder_info folder_path false entries).1 ∧
      (FolderAnalyzer.get_folder_info folder_path true entries).2.1
        = (FolderAnalyzer.get_folder_info folder_path false entries).2.1 ∧
      (FolderChecker.get_folder_info folder_path true acc entries).1
        = (FolderChecker.get_folder_info folder_path false acc entries).1 ∧
      (FolderChecker.get_folder_info folder_path true acc entries).2.1
        = (FolderChecker.get_folder_info folder_path false acc entries).2.1 := by
  obtain ⟨a1, a2⟩ := analyzer_scan_spec folder_path true entries
  obtain ⟨b1, b2⟩ := analyzer_scan_spec folder_path false entries
  obtain ⟨c1, c2, -⟩ := checker_scan_spec folder_path true acc entries
  obtain ⟨d1, d2, -⟩ := checker_scan_spec folder_path false acc entries
  exact ⟨a1.trans b1.symm, a2.trans b2.symm, c1.trans d1.symm, c2.trans d2.symm⟩

/-- C2: the total size of the items selected by `efficient_fitting_greedy`
never exceeds the adjusted capacity
`capacity_tb * 2 ^ 40 * (1 - safety_margin_percent / 100)`, for every item
list and every capacity and margin in the documented domain
(`capacity_tb ≥ 0`, `safety_margin_percent ∈ [0, 100]`). -/
theorem greedy_fit_total_within_adjusted_capacity
    (folder_infos : List (String × Nat × Nat))
    (capacity_tb safety_margin_percent : ℚ)
    (hcap : 0 ≤ capacity_tb) (hm0 : 0 ≤ safety_margin_percent)
    (hm1 : safety_margin_percent ≤ 100) :
    ((FolderAnalyzer.efficient_fitting_greedy folder_infos capacity_tb
          safety_margin_percent).1.map fun p => (p.2 : ℚ)).sum
      ≤ capacity_tb * 2 ^ 40 * (1 - safety_margin_percent / 100) := by
  have h1024 : (1024 : ℚ) ^ 4 = 2 ^ 40 := by norm_num
  simp only [FolderAnalyzer.efficient_fitting_greedy]
  set sorted := ((folder_infos.map fun x => (x.1, x.2.1)).mergeSort
    fun a b => decide (b.2 ≤ a.2)) with hsorted
  set adj : ℚ := capacity_tb * 1024 ^ 4
    - capacity_tb * 1024 ^ 4 * (safety_margin_percent / 100) with hadj
  have hsum := fit_go_sum_add_rem sorted adj
  have hadjnn : 0 ≤ adj := by
    rw [hadj]
    have hfac : 0 ≤ 1 - safety_margin_percent / 100 := by linarith
    have : capacity_tb * 1024 ^ 4 - capacity_tb * 1024 ^ 4
        * (safety_margin_percent / 100)
        = capacity_tb * 1024 ^ 4 * (1 - safety_margin_percent / 100) := by ring
    rw [this]
    positivity
  have hrem := fit_go_rem_nonneg sorted adj hadjnn
  have hgoal : adj = capacity_tb * 2 ^ 40 * (1 - safety_margin_percent / 100) := by
    rw [hadj, ← h1024]; ring
  calc ((FolderAnalyzer.fit_go sorted adj).1.map fun p => (p.2 : ℚ)).sum
      ≤ ((FolderAnalyzer.fit_go sorted adj).1.map fun p => (p.2 : ℚ)).sum
          + (FolderAnalyzer.fit_go sorted adj).2 := le_add_of_nonneg_right hrem
    _ = adj := hsum
    _ = capacity_tb * 2 ^ 40 * (1 - safety_margin_percent / 100) := hgoal

/-- Witness for C2 at a concrete input. -/
theorem greedy_fit_total_within_adjusted_capacity_witness :
    (0 : ℚ) ≤ 1 ∧ (0 : ℚ) ≤ 10 ∧ (10 : ℚ) ≤ 100 ∧
      ((FolderAnalyzer.efficient_fitting_greedy [("a", 5, 1)] 1 10).1.map
          fun p => (p.2 : ℚ)).sum ≤ 1 * 2 ^ 40 * (1 - 10 / 100) :=
  ⟨by norm_num, by norm_num, by norm_num,
    greedy_fit_total_within_adjusted_capacity [("a", 5, 1)] 1 10
      (by norm_num) (by norm_num) (by norm_num)⟩

/-- C4 counterexample: `efficient_fitting_greedy` performs no input
validation — called with the out-of-range margin `200` it silently returns a
negative remaining capacity instead of failing fast. -/
theorem greedy_fitter_negative_remaining_on_margin_200 :
    (FolderAnalyzer.efficient_fitting_greedy [] 1 200).2 < 0 := by
  norm_num [FolderAnalyzer.efficient_fitting_greedy, FolderAnalyzer.fit_go,
    List.mergeSort_nil]

/-- C4 (amended): the greedy fitter does not validate its inputs; only for
capacities and margins in the documented domain (`capacity_tb ≥ 0`,
`safety_margin_percent ∈ [0, 100]`) is the returned
`remaining_capacity_bytes` never negative. -/
theorem greedy_fitter_remaining_nonneg_on_valid_inputs
    (folder_infos : List (String × Nat × Nat))
    (capacity_tb safety_margin_percent : ℚ)
    (hcap : 0 ≤ capacity_tb) (hm0 : 0 ≤ safety_margin_percent)
    (hm1 : safety_margin_percent ≤ 100) :
    0 ≤ (FolderAnalyzer.efficient_fitting_greedy folder_infos capacity_tb
        safety_margin_percent).2 := by
  simp only [FolderAnalyzer.efficient_fitting_greedy]
  apply fit_go_rem_nonneg
  have hfac : 0 ≤ 1 - safety_margin_percent / 100 := by linarith
  have heq : capacity_tb * 1024 ^ 4
      - capacity_tb * 1024 ^ 4 * (safety_margin_percent / 100)
      = capacity_tb * 1024 ^ 4 * (1 - safety_margin_percent / 100) := by ring
  rw [heq]
  exact mul_nonneg (mul_nonneg hcap (by positivity)) hfac

/-- Witness for the amended C4 at a concrete input. -/
theorem greedy_fitter_remaining_nonneg_on_valid_inputs_witness :
    (0 : ℚ) ≤ 2 ∧ (0 : ℚ) ≤ 50 ∧ (50 : ℚ) ≤ 100 ∧
      0 ≤ (FolderAnalyzer.efficient_fitting_greedy [("b", 3, 2)] 2 50).2 :=
  ⟨by norm_num, by norm_num, by norm_num,
    greedy_fitter_remaining_nonneg_on_valid_inputs [("b", 3, 2)] 2 50
      (by norm_num) (by norm_num) (by norm_num)⟩

/-- C7: an item whose size strictly exceeds the adjusted capacity
`capacity_tb * 2 ^ 40 * (1 - safety_margin_percent / 100)` is never selected
by the greedy fitter, wherever it sits in the input order. -/
theorem oversized_item_never_selected
    (folder_infos : List (String × Nat × Nat))
    (capacity_tb safety_margin_percent : ℚ) (folder : String) (size : Nat)
    (hbig : capacity_tb * 2 ^ 40 * (1 - safety_margin_percent / 100)
      < (size : ℚ)) :
    (folder, size) ∉ (FolderAnalyzer.efficient_fitting_greedy folder_infos
        capacity_tb safety_margin_percent).1 := by
  intro hmem
  simp only [FolderAnalyzer.efficient_fitting_greedy] at hmem
  have hle := fit_go_mem_size_le _ _ _ _ hmem
  have h1024 : (1024 : ℚ) ^ 4 = 2 ^ 40 := by norm_num
  have heq : capacity_tb * 1024 ^ 4
      - capacity_tb * 1024 ^ 4 * (safety_margin_percent / 100)
      = capacity_tb * 2 ^ 40 * (1 - safety_margin_percent / 100) := by
    rw [← h1024]; ring
  rw [heq] at hle
  linarith

/-- Witness for C7 at a concrete input: a `2 ^ 41`-byte folder cannot be
selected into a 1 TiB disk with no margin. -/
theorem oversized_item_never_selected_witness :
    (1 : ℚ) * 2 ^ 40 * (1 - 0 / 100) < ((2199023255552 : Nat) : ℚ) ∧
      ("x", 2199023255552) ∉ (FolderAnalyzer.efficient_fitting_greedy
        [("x", 2199023255552, 0)] 1 0).1 :=
  ⟨by norm_num,
    oversized_item_never_selected [("x", 2199023255552, 0)] 1 0 "x"
      2199023255552 (by norm_num)⟩

/-- C8: with `safety_margin_percent = 100` the adjusted capacity is `0`, so
the greedy fitter selects nothing, provided no item has size `0`. -/
theorem full_safety_margin_selects_nothing
    (folder_infos : List (String × Nat × Nat)) (capacity_tb : ℚ)
    (hpos : ∀ x ∈ folder_infos, x.2.1 ≠ 0) :
    (FolderAnalyzer.efficient_fitting_greedy folder_infos capacity_tb
        100).1 = [] := by
  simp only [FolderAnalyzer.efficient_fitting_greedy]
  have hadj : capacity_tb * 1024 ^ 4
      - capacity_tb * 1024 ^ 4 * ((100 : ℚ) / 100) = 0 := by norm_num
  rw [hadj]
  apply fit_go_pos_sizes_empty _ _ _ le_rfl
  intro p hp
  rw [List.mem_mergeSort] at hp
  obtain ⟨x, hx, rfl⟩ := List.mem_map.mp hp
  exact hpos x hx

/-- Witness for C8 at a concrete input. -/
theorem full_safety_margin_selects_nothing_witness :
    (∀ x ∈ ([("a", 7, 0)] : List (String × Nat × Nat)), x.2.1 ≠ 0) ∧
      (FolderAnalyzer.efficient_fitting_greedy [("a", 7, 0)] 3 100).1 = [] :=
  ⟨by decide,
    full_safety_margin_selects_nothing [("a", 7, 0)] 3 (by decide)⟩

/-- C3: `start_comparison` classifies the `i`-th pair as identical exactly
when the absolute difference of the two scans' byte totals is within
`size_threshold` and the absolute difference of their file counts is within
`file_count_threshold`. -/
theorem comparison_identical_iff_within_thresholds
    (fs : String → List FsEntry) (pairs : List (String × String))
    (s f : Nat) (st : Bool) (i : Nat) (hi : i < pairs.length) :
    ((FolderChecker.start_comparison fs pairs s f st).getD i ("", false)).2
        = true ↔
      (FolderChecker.spec_size_delta fs (pairs.getD i ("", "")).1
          (pairs.getD i ("", "")).2 ≤ s ∧
        FolderChecker.spec_file_count_delta fs (pairs.getD i ("", "")).1
          (pairs.getD i ("", "")).2 ≤ f) := by
  rw [start_comparison_getD fs pairs s f st i hi]
  simp [decide_eq_true_iff]

/-- Witness for C3 at a concrete input. -/
theorem comparison_identical_iff_within_thresholds_witness :
    0 < ([("a", "b")] : List (String × String)).length ∧
      (((FolderChecker.start_comparison (fun _ => []) [("a", "b")] 0 0
            false).getD 0 ("", false)).2 = true ↔
        (FolderChecker.spec_size_delta (fun _ => []) "a" "b" ≤ 0 ∧
          FolderChecker.spec_file_count_delta (fun _ => []) "a" "b" ≤ 0)) :=
  ⟨by decide,
    comparison_identical_iff_within_thresholds (fun _ => []) [("a", "b")]
      0 0 false 0 (by decide)⟩

/-- C6: raising either threshold preserves an `identical` verdict of
`start_comparison`; it can only turn `different` into `identical`, never the
reverse. -/
theorem raising_thresholds_preserves_identical
    (fs : String → List FsEntry) (pairs : List (String × String))
    (s f s' f' : Nat) (st : Bool) (i : Nat) (hi : i < pairs.length)
    (hs : s ≤ s') (hf : f ≤ f')
    (hid : ((FolderChecker.start_comparison fs pairs s f st).getD i
        ("", false)).2 = true) :
    ((FolderChecker.start_comparison fs pairs s' f' st).getD i
        ("", false)).2 = true := by
  rw [start_comparison_getD fs pairs s f st i hi] at hid
  rw [start_comparison_getD fs pairs s' f' st i hi]
  simp only [decide_eq_true_eq] at hid ⊢
  exact ⟨hid.1.trans hs, hid.2.trans hf⟩

/-- Witness for C6 at a concrete input. -/
theorem raising_thresholds_preserves_identical_witness :
    0 < ([("a", "b")] : List (String × String)).length ∧ 0 ≤ 1 ∧ 0 ≤ 2 ∧
      ((FolderChecker.start_comparison (fun _ => []) [("a", "b")] 0 0
          false).getD 0 ("", false)).2 = true ∧
      ((FolderChecker.start_comparison (fun _ => []) [("a", "b")] 1 2
          false).getD 0 ("", false)).2 = true :=
  ⟨by decide, by decide, by decide,
    by simp [FolderChecker.start_comparison, FolderChecker.get_folder_info],
    raising_thresholds_preserves_identical (fun _ => []) [("a", "b")]
      0 0 1 2 false 0 (by decide) (by decide) (by decide)
      (by simp [FolderChecker.start_comparison,
        FolderChecker.get_folder_info])⟩

/-- C9: swapping the two sides of a directory pair changes neither the size
delta, nor the file-count delta, nor the `identical` verdict of
`start_comparison`. -/
theorem comparison_symmetric_in_pair_order
    (fs : String → List FsEntry) (a b : String) (s f : Nat) (st : Bool) :
    FolderChecker.spec_size_delta fs a b
        = FolderChecker.spec_size_delta fs b a ∧
      FolderChecker.spec_file_count_delta fs a b
        = FolderChecker.spec_file_count_delta fs b a ∧
      (FolderChecker.start_comparison fs [(a, b)] s f st).map Prod.snd
        = (FolderChecker.start_comparison fs [(b, a)] s f st).map Prod.snd := by
  have hsd : ∀ x y : Nat, ((x : Int) - y).natAbs = ((y : Int) - x).natAbs := by
    intro x y; omega
  refine ⟨hsd _ _, hsd _ _, ?_⟩
  simp only [FolderChecker.start_comparison, List.map_cons, List.map_nil]
  rw [hsd (FolderChecker.get_folder_info a st 0 (fs a)).1
      (FolderChecker.get_folder_info b st 0 (fs b)).1,
    hsd (FolderChecker.get_folder_info a st 0 (fs a)).2.1
      (FolderChecker.get_folder_info b st 0 (fs b)).2.1]

/-- C10: the message `start_comparison` produces for the `i`-th pair is
labelled with `1` plus the index of the first occurrence of that pair in the
input list (`directory_pairs.index(...)`), so duplicate occurrences of a
pair all carry the first occurrence's pair number and message. -/
theorem comparison_message_numbered_by_first_occurrence
    (fs : String → List FsEntry) (pairs : List (String × String))
    (s f : Nat) (st : Bool) (i j : Nat)
    (hi : i < pairs.length) (hj : j < pairs.length)
    (heq : pairs.getD i ("", "") = pairs.getD j ("", "")) :
    ((FolderChecker.start_comparison fs pairs s f st).getD i ("", false)).1
        = FolderChecker.pair_label fs s f
            (List.indexOf (pairs.getD i ("", "")) pairs + 1)
            (pairs.getD i ("", "")) ∧
      ((FolderChecker.start_comparison fs pairs s f st).getD i ("", false)).1
        = ((FolderChecker.start_comparison fs pairs s f st).getD j
            ("", false)).1 := by
  have h1 := start_comparison_getD fs pairs s f st i hi
  have h2 := start_comparison_getD fs pairs s f st j hj
  constructor
  · rw [h1]
  · rw [h1, h2, heq]

/-- Witness for C10 at a concrete input: the third occurrence of the pair
`("a", "b")` is labelled with pair number `1`, the label of its first
occurrence. -/
theorem comparison_message_numbered_by_first_occurrence_witness :
    2 < ([("a", "b"), ("c", "d"), ("a", "b")] : List (String × String)).length ∧
      0 < ([("a", "b"), ("c", "d"), ("a", "b")] : List (String × String)).length ∧
      ([("a", "b"), ("c", "d"), ("a", "b")] : List (String × String)).getD 2
          ("", "")
        = ([("a", "b"), ("c", "d"), ("a", "b")] :
            List (String × String)).getD 0 ("", "") ∧
      (((FolderChecker.start_comparison (fun _ => [])
            [("a", "b"), ("c", "d"), ("a", "b")] 0 0 false).getD 2
            ("", false)).1
          = FolderChecker.pair_label (fun _ => []) 0 0
              (List.indexOf ("a", "b")
                  [("a", "b"), ("c", "d"), ("a", "b")] + 1) ("a", "b") ∧
        ((FolderChecker.start_comparison (fun _ => [])
            [("a", "b"), ("c", "d"), ("a", "b")] 0 0 false).getD 2
            ("", false)).1
          = ((FolderChecker.start_comparison (fun _ => [])
              [("a", "b"), ("c", "d"), ("a", "b")] 0 0 false).getD 0
              ("", false)).1) :=
  ⟨by decide, by decide, by decide,
    comparison_message_numbered_by_first_occurrence (fun _ => [])
      [("a", "b"), ("c", "d"), ("a", "b")] 0 0 false 2 0
      (by decide) (by decide) (by decide)⟩
